import Mathlib

/-!
Verification of the budget ingestion / normalization / classification /
aggregation pipeline of the `vibeCodingExample` repository.

The TypeScript sources embedded here are
`src/server/src/services/dataService.ts` (numeric parser, concept
classifier, year-columns CSV processor, traditional CSV normalizer and the
data-fetch orchestration) and `src/server/src/routes/budgetRoutes.ts`
(the summary aggregation and the hardcoded baseline dataset).

Modelling conventions:
* JavaScript numbers are modelled as `ℚ`; `NaN` outcomes are modelled with
  `Option ℚ` (`none` = NaN).  `parseFloat` is embedded as `parseFloatQ`
  following the ECMAScript grammar (sign, digits, optional fraction,
  optional exponent, longest valid prefix; the special `Infinity` literals
  are not modelled and are treated as NaN — no claim depends on them).
* CSV records (objects produced by `csv-parse` with `columns: true`) are
  modelled as association lists `List (String × String)`; a missing column
  reads as `""`, matching the source's `String(record[col] || '')`.
* `String.prototype.toLowerCase` is modelled with `Char.toLower`
  (ASCII folding).  All keyword matching in the source compares
  already-lowercase keywords, and every theorem uses the same folding on
  both sides of any comparison.
-/

set_option maxRecDepth 100000
set_option maxHeartbeats 1000000

namespace BudgetPipeline

/-- Character list of a maximal leading run of decimal digits. -/
def takeDigits (l : List Char) : List Char := l.takeWhile Char.isDigit

/-- Remainder after the maximal leading run of decimal digits. -/
def dropDigits (l : List Char) : List Char := l.dropWhile Char.isDigit

/-- Numeric value of a digit string (most significant first). -/
def digitsToNat (ds : List Char) : Nat :=
  ds.foldl (fun a c => a * 10 + (c.toNat - 48)) 0

/-- Exponent suffix of the ECMAScript float grammar: an optional sign and a
digit run; an empty digit run means the exponent is ignored, exactly as
`parseFloat("1.2e")` evaluates to `1.2`. -/
def applyExp (m : ℚ) (rest : List Char) : ℚ :=
  let signed : Bool × List Char :=
    match rest with
    | '-' :: t => (true, t)
    | '+' :: t => (false, t)
    | _ => (false, rest)
  let eds := takeDigits signed.2
  if eds.isEmpty then m
  else if signed.1 then m / ((10 : ℚ) ^ digitsToNat eds)
  else m * ((10 : ℚ) ^ digitsToNat eds)

/-- Embedding of JavaScript `parseFloat` on a character list: skip leading
whitespace, optional sign, integer digits, optional `.` fraction, optional
exponent; `none` models `NaN` (no digit in the mantissa). -/
def parseFloatQ (l : List Char) : Option ℚ :=
  let l1 := l.dropWhile Char.isWhitespace
  let signed : ℚ × List Char :=
    match l1 with
    | '-' :: rest => (-1, rest)
    | '+' :: rest => (1, rest)
    | _ => (1, l1)
  let intDs := takeDigits signed.2
  let l3 := dropDigits signed.2
  let fracSplit : List Char × List Char :=
    match l3 with
    | '.' :: rest => (takeDigits rest, dropDigits rest)
    | _ => ([], l3)
  if intDs.isEmpty && fracSplit.1.isEmpty then none
  else
    let mantissa : ℚ :=
      (digitsToNat intDs : ℚ) + (digitsToNat fracSplit.1 : ℚ) / ((10 : ℚ) ^ fracSplit.1.length)
    let value : ℚ :=
      match fracSplit.2 with
      | 'e' :: rest => applyExp mantissa rest
      | 'E' :: rest => applyExp mantissa rest
      | _ => mantissa
    some (signed.1 * value)

/-- `parseFloat` on a `String`. -/
def parseFloatStr (s : String) : Option ℚ := parseFloatQ s.toList

/-- The source's `amountStr.replace(/[€$£¥\s]/g, '')`: drop the four
currency symbols and whitespace everywhere. -/
def stripCurrency (l : List Char) : List Char :=
  l.filter (fun c => !(c == '€' || c == '$' || c == '£' || c == '¥' || c.isWhitespace))

/-- JavaScript `String.prototype.toLowerCase`, ASCII folding, mapped over
the character list. -/
def toLowerString (s : String) : String := String.mk (s.toList.map Char.toLower)

/-- JavaScript `String.prototype.trim`: drop leading and trailing
whitespace. -/
def trimStr (s : String) : String :=
  String.mk (((s.toList.dropWhile Char.isWhitespace).reverse.dropWhile Char.isWhitespace).reverse)

/-- JavaScript `hay.includes(needle)`: substring containment. -/
def includesStr (hay needle : String) : Bool :=
  hay.toList.tails.any (fun t => needle.toList.isPrefixOf t)

/-- JavaScript `lastIndexOf` for a single character, `-1` when absent. -/
def lastIdxOf (c : Char) (l : List Char) : Int :=
  l.enum.foldl (fun acc p => if p.2 == c then (p.1 : Int) else acc) (-1)

/-- JavaScript `String.prototype.replace(c, d)` with a single-character
pattern: only the first occurrence is replaced. -/
def replaceFirstChar (c d : Char) : List Char → List Char
  | [] => []
  | x :: xs => if x == c then d :: xs else x :: replaceFirstChar c d xs

/-- Worker for `splitOnChar`: the first part and the remaining parts (a
split is never empty, so the pair form avoids a dead `[]` case). -/
def splitOnCharAux (c : Char) : List Char → List Char × List (List Char)
  | [] => ([], [])
  | x :: xs =>
    let r := splitOnCharAux c xs
    if x == c then ([], r.1 :: r.2) else (x :: r.1, r.2)

/-- JavaScript `String.prototype.split(c)` for a single-character
separator. -/
def splitOnChar (c : Char) (l : List Char) : List (List Char) :=
  (splitOnCharAux c l).1 :: (splitOnCharAux c l).2

/-- The characters after the first occurrence of `c` (everything, when
exactly one `c` occurs, that "follows" the separator). -/
def afterFirstChar (c : Char) (l : List Char) : List Char :=
  (l.dropWhile (fun x => !(x == c))).drop 1

/-- The cleaning phase of `parseAmount`
(`dataService.ts` lines 509–543), operating on the already
currency-stripped character list.  Mirrors the source branch for branch:
both separators present → the later one is the decimal separator; only a
comma → decimal separator iff the split has exactly two parts and the
second has at most two characters; otherwise periods are removed. -/
def cleanNumeric (l : List Char) : List Char :=
  if l.contains ',' && l.contains '.' then
    if lastIdxOf ',' l > lastIdxOf '.' l then
      replaceFirstChar ',' '.' (l.filter (fun c => !(c == '.')))
    else
      l.filter (fun c => !(c == ','))
  else if l.contains ',' then
    if (splitOnChar ',' l).length = 2 ∧ ((splitOnChar ',' l).getD 1 []).length ≤ 2 then
      replaceFirstChar ',' '.' l
    else
      l.filter (fun c => !(c == ','))
  else
    l.filter (fun c => !(c == '.'))

/-- Embedding of `parseAmount` (`dataService.ts` lines 509–547): empty
input yields 0, otherwise strip currency symbols and whitespace, clean the
separators, `parseFloat`, and map NaN to 0. -/
def parseAmount (s : String) : ℚ :=
  if s == "" then 0
  else (parseFloatQ (cleanNumeric (stripCurrency s.toList))).getD 0

/-- Reference cleaning following the words of spec §4.3.  Step 3 reads
"if only a comma appears: treat as decimal separator when followed by
exactly 1–2 digits", formalized literally: exactly one comma occurs and
the text after it consists of exactly one or two digits.  Steps 2 and 4
coincide with the source. -/
def cleanNumericSpec (l : List Char) : List Char :=
  if l.contains ',' && l.contains '.' then
    if lastIdxOf ',' l > lastIdxOf '.' l then
      replaceFirstChar ',' '.' (l.filter (fun c => !(c == '.')))
    else
      l.filter (fun c => !(c == ','))
  else if l.contains ',' then
    if l.count ',' = 1 ∧ (afterFirstChar ',' l).all Char.isDigit
        ∧ 1 ≤ (afterFirstChar ',' l).length ∧ (afterFirstChar ',' l).length ≤ 2 then
      replaceFirstChar ',' '.' l
    else
      l.filter (fun c => !(c == ','))
  else
    l.filter (fun c => !(c == '.'))

/-- The spec's reference `parseAmount`: strip currency symbols and
whitespace, clean per spec §4.3, parse as a decimal, non-numeric yields
0. -/
def parseAmountSpecRef (s : String) : ℚ :=
  (parseFloatQ (cleanNumericSpec (stripCurrency s.toList))).getD 0

/-- The amended cleaning: step 3's condition is corrected to what the
source implements — the comma is a decimal separator when exactly one
comma is present and at most two characters (digits or not) follow it. -/
def cleanNumericAmended (l : List Char) : List Char :=
  if l.contains ',' && l.contains '.' then
    if lastIdxOf ',' l > lastIdxOf '.' l then
      replaceFirstChar ',' '.' (l.filter (fun c => !(c == '.')))
    else
      l.filter (fun c => !(c == ','))
  else if l.contains ',' then
    if l.count ',' = 1 ∧ (afterFirstChar ',' l).length ≤ 2 then
      replaceFirstChar ',' '.' l
    else
      l.filter (fun c => !(c == ','))
  else
    l.filter (fun c => !(c == '.'))

/-- The amended reference `parseAmount`. -/
def parseAmountAmendedRef (s : String) : ℚ :=
  (parseFloatQ (cleanNumericAmended (stripCurrency s.toList))).getD 0

/-- Embedding of `mapConceptToType` (`dataService.ts` lines 552–631): a
cascade of case-insensitive keyword tests in source order, falling through
to the category's catch-all.  The TypeScript signature allows `null` but
every path returns a string, so the embedding returns `String`. -/
def mapConceptToType (concept : String) (category : String) : String :=
  let conceptLower := toLowerString concept
  if category == "income" then
    if includesStr conceptLower "impuestos directos" || includesStr conceptLower "irpf" || includesStr conceptLower "renta" then "personal_income_tax"
    else if includesStr conceptLower "sociedades" || includesStr conceptLower "corporativo" then "corporate_tax"
    else if includesStr conceptLower "impuestos indirectos" || includesStr conceptLower "iva" then "vat"
    else if includesStr conceptLower "seguridad social" || includesStr conceptLower "cotizaciones" then "social_security_contributions"
    else if includesStr conceptLower "comunidad" || includesStr conceptLower "autónoma" || includesStr conceptLower "territorial" then "autonomous_communities_taxes"
    else if includesStr conceptLower "ue" || includesStr conceptLower "europa" || includesStr conceptLower "fondo europeo" then "eu_funds"
    else if includesStr conceptLower "tasas" || includesStr conceptLower "precios" || includesStr conceptLower "transferencias" || includesStr conceptLower "patrimoniales" || includesStr conceptLower "enajenación" then "other_revenues"
    else "other_revenues"
  else
    if includesStr conceptLower "pension" then "pensions"
    else if includesStr conceptLower "seguridad social" || includesStr conceptLower "sanidad" || includesStr conceptLower "salud" then "social_security"
    else if includesStr conceptLower "educación" || includesStr conceptLower "educacion" then "education"
    else if includesStr conceptLower "sanidad" || includesStr conceptLower "salud" then "healthcare"
    else if includesStr conceptLower "defensa" || includesStr conceptLower "militar" then "defense"
    else if includesStr conceptLower "infraestructura" || includesStr conceptLower "infraestructuras" || includesStr conceptLower "obra pública" then "infrastructure"
    else if includesStr conceptLower "administración" || includesStr conceptLower "administracion" || includesStr conceptLower "personal" || includesStr conceptLower "bienes y servicios" then "public_administration"
    else if includesStr conceptLower "interés" || includesStr conceptLower "interes" || includesStr conceptLower "deuda" || includesStr conceptLower "gastos financieros" || includesStr conceptLower "deuda pública" then "debt_interest"
    else if includesStr conceptLower "transferencias" || includesStr conceptLower "contingencia" || includesStr conceptLower "inversiones" || includesStr conceptLower "desempleo" || includesStr conceptLower "prestaciones" || includesStr conceptLower "servicios sociales" then "other_spending"
    else "other_spending"

/-- The spec's view of the classifier (§4.4): an explicit ordered rule
list — keyword set paired with the produced type — evaluated first match
wins.  Income rules, in source order. -/
def incomeRules : List (List String × String) :=
  [ (["impuestos directos", "irpf", "renta"], "personal_income_tax"),
    (["sociedades", "corporativo"], "corporate_tax"),
    (["impuestos indirectos", "iva"], "vat"),
    (["seguridad social", "cotizaciones"], "social_security_contributions"),
    (["comunidad", "autónoma", "territorial"], "autonomous_communities_taxes"),
    (["ue", "europa", "fondo europeo"], "eu_funds"),
    (["tasas", "precios", "transferencias", "patrimoniales", "enajenación"], "other_revenues") ]

/-- Spending rules of the spec's ordered rule list, in source order. -/
def spendingRules : List (List String × String) :=
  [ (["pension"], "pensions"),
    (["seguridad social", "sanidad", "salud"], "social_security"),
    (["educación", "educacion"], "education"),
    (["sanidad", "salud"], "healthcare"),
    (["defensa", "militar"], "defense"),
    (["infraestructura", "infraestructuras", "obra pública"], "infrastructure"),
    (["administración", "administracion", "personal", "bienes y servicios"], "public_administration"),
    (["interés", "interes", "deuda", "gastos financieros", "deuda pública"], "debt_interest"),
    (["transferencias", "contingencia", "inversiones", "desempleo", "prestaciones", "servicios sociales"], "other_spending") ]

/-- First-match evaluation of an ordered rule list: the first rule one of
whose keywords is a substring of the lowered concept wins; otherwise the
default. -/
def firstMatch : List (List String × String) → String → String → String
  | [], deflt, _ => deflt
  | (kws, t) :: rest, deflt, lc =>
    if kws.any (fun k => includesStr lc k) then t else firstMatch rest deflt lc

/-- The classifier as the spec describes it: ordered rule list, first
match wins, catch-all default per category. -/
def classifyByRules (concept category : String) : String :=
  let lc := toLowerString concept
  if category == "income" then firstMatch incomeRules "other_revenues" lc
  else firstMatch spendingRules "other_spending" lc

/-- A parsed CSV record (`csv-parse` with `columns: true`): column name to
cell text, in column order. -/
abbrev Row : Type := List (String × String)

/-- `String(record[col] || '')`: the cell under a column name, `""` when
the column is absent. -/
def getField (r : Row) (k : String) : String :=
  match r.find? (fun p => p.1 == k) with
  | some p => p.2
  | none => ""

/-- A normalized budget line item.  `conceptId` is only set on the
year-columns path (the traditional normalizer emits no `conceptId`). -/
structure BudgetLineItem where
  year : Int
  category : String
  type : String
  amount : ℚ
  description : String
  conceptId : Option String
deriving DecidableEq, Repr

/-- Column-name test `/^\d{4}(-P)?$/` used to recognize year columns. -/
def isYearCol (s : String) : Bool :=
  match s.toList with
  | [a, b, c, d] => a.isDigit && b.isDigit && c.isDigit && d.isDigit
  | [a, b, c, d, '-', 'P'] => a.isDigit && b.isDigit && c.isDigit && d.isDigit
  | _ => false

/-- The test `/^\d{4}/`: the string starts with four digits. -/
def startsWithFourDigits (s : String) : Bool :=
  match s.toList with
  | a :: b :: c :: d :: _ => a.isDigit && b.isDigit && c.isDigit && d.isDigit
  | _ => false

/-- The test `/^\d+\.?\d*$/`: one or more digits, an optional period, then
optional digits — the "purely numeric concept" filter. -/
def isNumericStr (s : String) : Bool :=
  let l := s.toList
  match dropDigits l with
  | [] => !(takeDigits l).isEmpty
  | '.' :: rest => !(takeDigits l).isEmpty && rest.all Char.isDigit
  | _ => false

/-- JavaScript `parseInt` in base 10: leading whitespace, optional sign,
maximal digit run; `none` models `NaN`. -/
def parseIntJS (s : String) : Option Int :=
  let l1 := s.toList.dropWhile Char.isWhitespace
  let signed : Bool × List Char :=
    match l1 with
    | '-' :: rest => (true, rest)
    | '+' :: rest => (false, rest)
    | _ => (false, l1)
  let ds := takeDigits signed.2
  if ds.isEmpty then none
  else some (if signed.1 then -(digitsToNat ds : Int) else (digitsToNat ds : Int))

/-- Collapses every run of consecutive underscores to a single one. -/
def collapseUnderscores : List Char → List Char
  | [] => []
  | [c] => [c]
  | a :: b :: rest =>
    if a == '_' && b == '_' then collapseUnderscores (b :: rest)
    else a :: collapseUnderscores (b :: rest)

/-- The concept slug of the year-columns path:
`concept.toLowerCase().replace(/[^a-z0-9]+/g, '_').replace(/^_+|_+$/g, '')`.
Each maximal run of characters outside `[a-z0-9]` becomes one underscore
(modelled as pointwise replacement followed by run collapsing, which is
equivalent), then leading and trailing underscores are stripped. -/
def slugify (s : String) : String :=
  let lower := (toLowerString s).toList
  let replaced := lower.map (fun c => if ('a' ≤ c && c ≤ 'z') || c.isDigit then c else '_')
  let collapsed := collapseUnderscores replaced
  let stripped := ((collapsed.dropWhile (fun c => c == '_')).reverse.dropWhile (fun c => c == '_')).reverse
  String.mk stripped

/-- The number of significant decimal digits of a numeral split into
integer digits and fraction digits. -/
def sigDigits (ds frac : List Char) : Nat :=
  if ds = ['0'] then (frac.dropWhile (fun c => c == '0')).length
  else ds.length + frac.length

/-- Canonical finite-double numeral shape: the exact strings JavaScript
`Number.prototype.toString` can print for a finite double in plain decimal
notation, restricted to at most 15 significant digits (every such numeral
round-trips exactly through a double). -/
def isCanonicalNumeral (s : String) : Bool :=
  let core : List Char → Bool := fun l =>
    let ds := takeDigits l
    let intOk := !ds.isEmpty && (ds.length = 1 || !(ds.headD '0' == '0')) && decide (ds.length ≤ 21)
    match dropDigits l with
    | [] => intOk && decide (sigDigits ds [] ≤ 15)
    | '.' :: frac =>
      intOk && !frac.isEmpty && frac.all Char.isDigit && !(frac.getLastD '0' == '0')
        && (if ds = ['0'] then decide ((frac.takeWhile (fun c => c == '0')).length ≤ 5) else true)
        && decide (sigDigits ds frac ≤ 15)
    | _ => false
  match s.toList with
  | '-' :: rest => core rest && !(rest = ['0'])
  | l => core l

/-- Modelled approximation of the source guard
`parseFloat(concept).toString() === concept` (`dataService.ts` line 161).
JavaScript float-to-string is shortest-round-trip printing, which has no
exact shallow embedding; the model accepts the special numerals and
canonical plain decimals of at most 15 significant digits, which is
faithful on every string this development evaluates, and every claim below
is insensitive to the residual cases (the guard only discards rows). -/
def floatToStringRoundtrips (s : String) : Bool :=
  s == "NaN" || s == "Infinity" || s == "-Infinity" || isCanonicalNumeral s

/-- The concept column chosen by `processYearColumnsCSV` (lines 66–75):
the first column, unless it looks like a year, in which case the first
non-year-looking column if any. -/
def conceptColumnOf (cols : List String) : String :=
  let c0 := cols.headD ""
  if startsWithFourDigits c0 then
    match cols.find? (fun col => !startsWithFourDigits col) with
    | some c => c
    | none => c0
  else c0

/-- The year columns of a year-columns table (line 81–84): every column
after the first whose name matches `/^\d{4}(-P)?$/`. -/
def yearColumnsOf (cols : List String) : List String :=
  (cols.drop 1).filter isYearCol

/-- Column names of a record list: the keys of the first record. -/
def columnsOf (records : List Row) : List String :=
  match records with
  | [] => []
  | r :: _ => r.map Prod.fst

/-- The numeric reading of one year-column cell (`dataService.ts`
lines 124–135): require a non-empty trimmed cell, strip currency symbols
and whitespace, and `parseFloat` the rest — a plain decimal with a period
decimal point; `none` covers the empty cell and NaN. -/
def cellValue (r : Row) (yearCol : String) : Option ℚ :=
  let amountStr := trimStr (getField r yearCol)
  if amountStr == "" then none
  else
    let cleaned := trimStr (String.mk (stripCurrency amountStr.toList))
    parseFloatQ cleaned.toList

/-- One year-column cell of one surviving row (`dataService.ts`
lines 116–179): parse the year from the column name (suffixes such as
`-P` are cut at the first dash), read the cell value, discard NaN and
non-positive values, scale millions to base units, and run the final
concept validations before emitting the item. -/
def processCell (category : String) (concept : String) (r : Row) (yearCol : String) :
    Option BudgetLineItem :=
  match parseIntJS (String.mk (yearCol.toList.takeWhile (fun c => !(c == '-')))) with
  | none => none
  | some year =>
    match cellValue r yearCol with
    | none => none
    | some a =>
      if a ≤ 0 then none
      else if concept == "" || isNumericStr concept || decide (concept.length < 3) then none
      else if startsWithFourDigits concept || floatToStringRoundtrips concept then none
      else
        some { year := year, category := category, type := mapConceptToType concept category,
               amount := a * 1000000, description := concept,
               conceptId := some (slugify concept) }

/-- The trimmed concept cell of a row (`String(record[conceptColumn] || '').trim()`). -/
def rowConcept (r : Row) (conceptColumn : String) : String :=
  trimStr (getField r conceptColumn)

/-- One row of a year-columns table (lines 90–180): skip subtotal/noise
rows (empty concept, concept equal to the header name, concept containing
"total" case-insensitively, purely numeric concept), then emit one item
per parseable year column. -/
def processRow (conceptColumn : String) (yearColumns : List String) (category : String)
    (r : Row) : List BudgetLineItem :=
  if rowConcept r conceptColumn == "" || rowConcept r conceptColumn == conceptColumn
      || includesStr (toLowerString (rowConcept r conceptColumn)) "total"
      || isNumericStr (rowConcept r conceptColumn) then []
  else yearColumns.filterMap (processCell category (rowConcept r conceptColumn) r)

/-- Embedding of `processYearColumnsCSV` (`dataService.ts` lines 53–183):
derive the concept column and year columns from the first record's keys,
then process every record in order. -/
def processYearColumnsCSV (records : List Row) (category : String) : List BudgetLineItem :=
  match records with
  | [] => []
  | _ :: _ =>
    let cols := columnsOf records
    let conceptColumn := conceptColumnOf cols
    let yearColumns := yearColumnsOf cols
    (records.map (processRow conceptColumn yearColumns category)).flatten

/-- Candidate column names for the amount column (line 405–407),
compared against the lowercased column name. -/
def amountColumnNames : List String :=
  ["importe", "amount", "cantidad", "valor", "total", "euros", "liquidado", "ejecutado", "presupuestado"]

/-- Candidate column names for the concept column (line 410–412). -/
def conceptColumnNames : List String :=
  ["concepto", "concept", "descripcion", "description", "nombre", "name", "tipo", "denominacion", "capitulo"]

/-- Candidate column names for the category column (line 415–417). -/
def categoryColumnNames : List String :=
  ["tipo", "type", "categoria", "category", "clase", "clasificacion", "naturaleza"]

/-- The fallback amount-cell search of the normalizer (lines 433–440):
the first column whose value matches `/[\d.,]+/`, i.e. contains at least
one digit, period or comma. -/
def hasNumericChar (s : String) : Bool :=
  s.toList.any (fun c => c.isDigit || c == '.' || c == ',')

/-- The amount cell of a traditional record (`dataService.ts`
lines 429–441): the resolved amount column when one exists, otherwise the
first column whose value matches `/[\d.,]+/`, otherwise the empty
string. -/
def resolveAmountStr (cols : List String) (amountColumn : Option String) (record : Row) :
    String :=
  match amountColumn with
  | some c => getField record c
  | none =>
    match cols.find? (fun col => hasNumericChar (getField record col)) with
    | some col => getField record col
    | none => ""

/-- Category resolution strategy 1 (lines 451–461): read the category
column; any value containing an income keyword — or merely the letter
"i" — means income, else a spending keyword or "g" means spending, else
the default "spending". -/
def categoryFromColumn (categoryColumn : Option String) (record : Row) : String :=
  match categoryColumn with
  | some cc =>
    if includesStr (toLowerString (getField record cc)) "ingreso"
        || includesStr (toLowerString (getField record cc)) "revenue"
        || includesStr (toLowerString (getField record cc)) "income"
        || includesStr (toLowerString (getField record cc)) "i" then "income"
    else if includesStr (toLowerString (getField record cc)) "gasto"
        || includesStr (toLowerString (getField record cc)) "spending"
        || includesStr (toLowerString (getField record cc)) "expense"
        || includesStr (toLowerString (getField record cc)) "g" then "spending"
    else "spending"
  | none => "spending"

/-- The concept text of a traditional record (line 465). -/
def resolveConcept (conceptColumn : Option String) (record : Row) : String :=
  match conceptColumn with
  | some c => getField record c
  | none => ""

/-- Full category resolution (lines 451–473): the column strategy first;
when no category column exists and the result is still the "spending"
default, income-indicating words in the concept flip it to income. -/
def resolveCategory (categoryColumn conceptColumn : Option String) (record : Row) : String :=
  if categoryFromColumn categoryColumn record == "spending" && categoryColumn.isNone then
    if includesStr (toLowerString (resolveConcept conceptColumn record)) "ingreso"
        || includesStr (toLowerString (resolveConcept conceptColumn record)) "revenue"
        || includesStr (toLowerString (resolveConcept conceptColumn record)) "impuesto"
        || includesStr (toLowerString (resolveConcept conceptColumn record)) "tributo" then "income"
    else categoryFromColumn categoryColumn record
  else categoryFromColumn categoryColumn record

/-- One record of the traditional normalizer (`dataService.ts`
lines 426–500): extract the amount text, parse it, discard non-positive
amounts, resolve the category, classify the concept, and emit the item.
The source's `if (type)` guard never fails because `mapConceptToType`
always returns a non-empty string. -/
def normalizeRecord (cols : List String)
    (amountColumn conceptColumn categoryColumn : Option String)
    (year : Int) (record : Row) : Option BudgetLineItem :=
  if parseAmount (resolveAmountStr cols amountColumn record) ≤ 0 then none
  else
    some { year := year,
           category := resolveCategory categoryColumn conceptColumn record,
           type := mapConceptToType (resolveConcept conceptColumn record)
             (resolveCategory categoryColumn conceptColumn record),
           amount := parseAmount (resolveAmountStr cols amountColumn record),
           description := resolveConcept conceptColumn record,
           conceptId := none }

/-- Embedding of `normalizeCSVData` (`dataService.ts` lines 390–504):
resolve the amount, concept and category columns from the first record's
keys by candidate-name matching, then normalize every record, silently
skipping those that produce no item. -/
def normalizeCSVData (records : List Row) (year : Int) : List BudgetLineItem :=
  match records with
  | [] => []
  | _ :: _ =>
    let cols := columnsOf records
    let amountColumn := cols.find? (fun col => amountColumnNames.contains (toLowerString col))
    let conceptColumn := cols.find? (fun col => conceptColumnNames.contains (toLowerString col))
    let categoryColumn := cols.find? (fun col => categoryColumnNames.contains (toLowerString col))
    records.filterMap (normalizeRecord cols amountColumn conceptColumn categoryColumn year)

/-- The local CSV directory as `readLocalCSV` sees it: the parsed records
of `ingresos.csv` and `gastos.csv` when present, and the records of the
first traditional-format file that parses non-empty (`[]` when none). -/
structure LocalFiles where
  ingresos : Option (List Row)
  gastos : Option (List Row)
  traditional : List Row
deriving DecidableEq

/-- The year-columns pass of `readLocalCSV` (lines 193–230): process
`ingresos.csv` as income and `gastos.csv` as spending, in that order. -/
def yearColumnData (f : LocalFiles) : List BudgetLineItem :=
  (match f.ingresos with
   | some rs => processYearColumnsCSV rs "income"
   | none => []) ++
  (match f.gastos with
   | some rs => processYearColumnsCSV rs "spending"
   | none => [])

/-- Embedding of `readLocalCSV` (`dataService.ts` lines 189–269): the
year-columns pass wins outright when it yields items (`inl`); otherwise
the traditional files provide raw records (`inr`, possibly empty). -/
def readLocalCSV (f : LocalFiles) : List BudgetLineItem ⊕ List Row :=
  let ycd := yearColumnData f
  if ycd.length > 0 then Sum.inl ycd else Sum.inr f.traditional

/-- The dispatch of `fetchHaciendaCSV` on the shape of the local data
(`dataService.ts` lines 279–293).  Already-processed local data (the
year-columns pass, recognized in the source by
`localData[0].year !== undefined` and modelled by the sum tag) is filtered
by the requested year — and when that filter is empty the WHOLE multi-year
list is returned.  Raw local records pass through unchanged; with no local
data the network probe's records (the first candidate file that parses
non-empty, `[]` on total failure) are returned. -/
def filterProcessed (year : Int) (localData : List BudgetLineItem ⊕ List Row)
    (network : List Row) : List BudgetLineItem ⊕ List Row :=
  match localData with
  | Sum.inl items =>
    if (items.filter (fun i => i.year == year)).length > 0 then
      Sum.inl (items.filter (fun i => i.year == year))
    else Sum.inl items
  | Sum.inr localRaw =>
    if localRaw.length > 0 then Sum.inr localRaw else Sum.inr network

/-- Embedding of `fetchHaciendaCSV` (`dataService.ts` lines 275–351):
read the local directory, then dispatch on what it produced. -/
def fetchHaciendaCSV (year : Int) (f : LocalFiles) (network : List Row) :
    List BudgetLineItem ⊕ List Row :=
  filterProcessed year (readLocalCSV f) network

/-- Embedding of `fetchBudgetData` (`dataService.ts` lines 637–688).
Processed data is re-filtered by the requested year and returned even when
the filter is empty; raw records are normalized, and an empty
normalization falls through.  The datos.gob.es strategy of the source
always returns `[]` (its success path is a TODO), so the model ends with
the empty list.  `dataFromFetch` is the dispatch on the shape of the
fetched data (lines 645–667). -/
def dataFromFetch (year : Int) (csvData : List BudgetLineItem ⊕ List Row) :
    List BudgetLineItem :=
  match csvData with
  | Sum.inl items =>
    if items.length > 0 then items.filter (fun i => i.year == year) else []
  | Sum.inr raw =>
    if raw.length > 0 then
      if (normalizeCSVData raw year).length > 0 then normalizeCSVData raw year else []
    else []

/-- Embedding of `fetchBudgetData` (`dataService.ts` lines 637–688):
fetch, then dispatch on the shape of the result. -/
def fetchBudgetData (year : Int) (f : LocalFiles) (network : List Row) :
    List BudgetLineItem :=
  dataFromFetch year (fetchHaciendaCSV year f network)

/-- An aggregated entry of the summary: `{ _id: type, total }`. -/
structure AggEntry where
  id : String
  total : ℚ
deriving DecidableEq, Repr

/-- One side (income or spending) of a summary. -/
structure CategorySummary where
  items : List AggEntry
  total : ℚ
deriving DecidableEq, Repr

/-- The summary returned by `GET /summary/:year`. -/
structure BudgetSummary where
  year : Int
  income : CategorySummary
  spending : CategorySummary
  balance : ℚ
  dataSource : String
deriving DecidableEq, Repr

/-- In-place update of the first entry with the given id, adding the
amount to its total (the mutation inside the route's `reduce`). -/
def updateFirst : List AggEntry → String → ℚ → List AggEntry
  | [], _, _ => []
  | e :: rest, t, a =>
    if e.id == t then { e with total := e.total + a } :: rest
    else e :: updateFirst rest t a

/-- One step of the route's `reduce` (`budgetRoutes.ts` lines 106–114):
add the item's amount to the existing entry for its type, or push a new
entry at the end. -/
def upsertEntry (acc : List AggEntry) (i : BudgetLineItem) : List AggEntry :=
  if (acc.find? (fun e => e.id == i.type)).isSome then updateFirst acc i.type i.amount
  else acc ++ [{ id := i.type, total := i.amount }]

/-- Grouping of a category's items by type, summing amounts: the route's
`reduce` over the filtered item list. -/
def aggregateItems (items : List BudgetLineItem) : List AggEntry :=
  items.foldl upsertEntry []

/-- `items.reduce((sum, item) => sum + item.total, 0)`. -/
def totalOf (entries : List AggEntry) : ℚ :=
  entries.foldl (fun s e => s + e.total) 0

/-- The total recorded for a type in an aggregation result
(`acc.find(i => i._id === item.type)`), `none` when no entry exists. -/
def lookupTotal (l : List AggEntry) (t : String) : Option ℚ :=
  (l.find? (fun e => e.id == t)).map (fun e => e.total)

/-- The sum of the amounts of the items carrying a given type. -/
def typeSum (items : List BudgetLineItem) (t : String) : ℚ :=
  ((items.filter (fun i => i.type == t)).map (fun i => i.amount)).sum

/-- Embedding of `getHardcodedBudgetData` (`budgetRoutes.ts`
lines 199–242): the fixed hand-authored baseline; only the `year` field
depends on the argument. -/
def hardcodedBudgetData (year : Int) : BudgetSummary :=
  let incomeItems : List AggEntry :=
    [ { id := "personal_income_tax", total := 95000000000 },
      { id := "corporate_tax", total := 28000000000 },
      { id := "vat", total := 78000000000 },
      { id := "social_security_contributions", total := 120000000000 },
      { id := "autonomous_communities_taxes", total := 45000000000 },
      { id := "eu_funds", total := 35000000000 },
      { id := "other_revenues", total := 25000000000 } ]
  let spendingItems : List AggEntry :=
    [ { id := "pensions", total := 140000000000 },
      { id := "social_security", total := 95000000000 },
      { id := "education", total := 52000000000 },
      { id := "healthcare", total := 75000000000 },
      { id := "defense", total := 12000000000 },
      { id := "infrastructure", total := 18000000000 },
      { id := "public_administration", total := 35000000000 },
      { id := "debt_interest", total := 32000000000 },
      { id := "other_spending", total := 28000000000 } ]
  let totalIncome := totalOf incomeItems
  let totalSpending := totalOf spendingItems
  { year := year,
    income := { items := incomeItems, total := totalIncome },
    spending := { items := spendingItems, total := totalSpending },
    balance := totalIncome - totalSpending,
    dataSource := "hardcoded" }

/-- Embedding of the `GET /summary/:year` handler (`budgetRoutes.ts`
lines 95–151) after the data fetch: with real data, group each category by
type, total the groups and compute the balance with `dataSource = "real"`;
with no data, answer the hardcoded baseline.  The handler is total — every
structurally valid year yields a summary, never an error. -/
def getSummary (year : Int) (realData : List BudgetLineItem) : BudgetSummary :=
  if realData.length > 0 then
    let incomeItems := aggregateItems (realData.filter (fun i => i.category == "income"))
    let spendingItems := aggregateItems (realData.filter (fun i => i.category == "spending"))
    let totalIncome := totalOf incomeItems
    let totalSpending := totalOf spendingItems
    { year := year,
      income := { items := incomeItems, total := totalIncome },
      spending := { items := spendingItems, total := totalSpending },
      balance := totalIncome - totalSpending,
      dataSource := "real" }
  else hardcodedBudgetData year

/-- Concrete year-columns table used by the witnesses: one row, concept
"Impuestos directos", one year column 2024 holding "50000.00". -/
def exampleTable : List Row := [[("Concepto", "Impuestos directos"), ("2024", "50000.00")]]

/-- The single item the example table produces. -/
def exampleItem : BudgetLineItem :=
  { year := 2024, category := "income", type := "personal_income_tax",
    amount := 50000000000, description := "Impuestos directos",
    conceptId := some "impuestos_directos" }

/-- A subtotal row whose concept cell is "Total". -/
def exampleTotalRow : Row := [("Concepto", "Total"), ("2024", "50000.00")]

/-- A local directory holding only a year-columns `ingresos.csv` with 2024
data. -/
def exampleLocalFiles : LocalFiles :=
  { ingresos := some exampleTable, gastos := none, traditional := [] }

/-! ## Supporting lemmas -/

unseal Rat.mul Rat.add Rat.sub Rat.inv Rat.ofScientific

theorem splitOnCharAux_length (c : Char) (l : List Char) :
    (splitOnCharAux c l).2.length = l.count c := by
  induction l with
  | nil => rfl
  | cons x xs ih =>
    by_cases hx : x == c
    · simp [splitOnCharAux, hx, List.count_cons, ih]
    · simp [splitOnCharAux, hx, List.count_cons, ih]

theorem splitOnCharAux_count_zero (c : Char) (l : List Char) (h : l.count c = 0) :
    splitOnCharAux c l = (l, []) := by
  induction l with
  | nil => rfl
  | cons x xs ih =>
    have hx : (x == c) = false := by
      by_contra hcon
      simp only [Bool.not_eq_false] at hcon
      simp [List.count_cons, hcon] at h
    have hxs : xs.count c = 0 := by simpa [List.count_cons, hx] using h
    simp [splitOnCharAux, hx, ih hxs]

theorem splitOnCharAux_count_one (c : Char) (l : List Char) (h : l.count c = 1) :
    (splitOnCharAux c l).2 = [afterFirstChar c l] := by
  induction l with
  | nil => simp at h
  | cons x xs ih =>
    by_cases hx : x == c
    · have hxs : xs.count c = 0 := by
        have := h
        simp [List.count_cons, hx] at this
        omega
      simp [splitOnCharAux, hx, splitOnCharAux_count_zero c xs hxs, afterFirstChar]
    · have hx' : (x == c) = false := by simpa using hx
      have hxs : xs.count c = 1 := by simpa [List.count_cons, hx'] using h
      simp [splitOnCharAux, hx', ih hxs, afterFirstChar]

theorem commaCond_iff (l : List Char) :
    ((splitOnChar ',' l).length = 2 ∧ ((splitOnChar ',' l).getD 1 []).length ≤ 2)
      ↔ (l.count ',' = 1 ∧ (afterFirstChar ',' l).length ≤ 2) := by
  constructor
  · rintro ⟨h1, h2⟩
    have hc : l.count ',' = 1 := by
      have hlen := splitOnCharAux_length ',' l
      simp only [splitOnChar, List.length_cons] at h1
      omega
    have h4 := splitOnCharAux_count_one ',' l hc
    refine ⟨hc, ?_⟩
    simpa [splitOnChar, h4] using h2
  · rintro ⟨hc, h2⟩
    have h4 := splitOnCharAux_count_one ',' l hc
    exact ⟨by simp [splitOnChar, h4], by simpa [splitOnChar, h4] using h2⟩

theorem cleanNumeric_eq_amended (l : List Char) :
    cleanNumeric l = cleanNumericAmended l := by
  unfold cleanNumeric cleanNumericAmended
  by_cases h1 : (l.contains ',' && l.contains '.') = true
  · rw [if_pos h1, if_pos h1]
  · rw [if_neg h1, if_neg h1]
    by_cases h2 : (l.contains ',') = true
    · rw [if_pos h2, if_pos h2]
      exact if_congr (commaCond_iff l) rfl rfl
    · rw [if_neg h2, if_neg h2]

/-! ## Claims -/

/-- C1: for every structurally valid year, the summary handler is a total
function; with an empty fetched item list it returns exactly the hardcoded
baseline, whose `dataSource` is `"hardcoded"` and which differs between
years only in its `year` field. -/
theorem summary_empty_is_hardcoded_baseline :
    ∀ year : Int,
      getSummary year [] = hardcodedBudgetData year ∧
      (getSummary year []).dataSource = "hardcoded" ∧
      ∀ y2 : Int, hardcodedBudgetData y2 = { hardcodedBudgetData year with year := y2 } :=
  fun _ => ⟨rfl, rfl, fun _ => rfl⟩

/-- C2 (amended): `parseAmount` agrees with the spec's reference
definition amended in its only-comma rule — the comma is a decimal
separator when exactly one comma is present and at most two characters of
any kind follow it — and satisfies all four documented test values. -/
theorem parseAmount_matches_amended_reference :
    (∀ s : String, parseAmount s = parseAmountAmendedRef s) ∧
    parseAmount "1.234,56" = 1234.56 ∧
    parseAmount "1,234.56" = 1234.56 ∧
    parseAmount "1234" = 1234 ∧
    parseAmount "abc" = 0 := by
  refine ⟨?_, by decide, by decide,
    by decide, by decide⟩
  intro s
  unfold parseAmount parseAmountAmendedRef
  by_cases hs : (s == "") = true
  · have : s = "" := by simpa using hs
    subst this
    decide
  · rw [if_neg hs, cleanNumeric_eq_amended]

/-- C2 counterexample: on `"1,2x"` the source keeps the comma as a decimal
separator (two characters follow it) and yields 1.2, while the spec's
literal only-comma rule (exactly 1–2 digits follow) removes the comma and
yields 12. -/
theorem parseAmount_spec_counterexample :
    parseAmount "1,2x" = 6 / 5 ∧ parseAmountSpecRef "1,2x" = 12 ∧
    parseAmount "1,2x" ≠ parseAmountSpecRef "1,2x" := by decide

/-- C3: the classifier implements exactly the ordered rule list with
first-match-wins semantics and per-category catch-alls, and satisfies the
three documented examples. -/
theorem classifier_is_ordered_first_match :
    (∀ concept category : String, mapConceptToType concept category = classifyByRules concept category) ∧
    mapConceptToType "IRPF" "income" = "personal_income_tax" ∧
    mapConceptToType "Pensiones contributivas" "spending" = "pensions" ∧
    mapConceptToType "xyz-unmatched" "income" = "other_revenues" := by
  refine ⟨?_, by decide, by decide, by decide⟩
  intro concept category
  simp only [mapConceptToType, classifyByRules, firstMatch, incomeRules, spendingRules,
    List.any_cons, List.any_nil, Bool.or_false, Bool.or_assoc]

/-- C10: the classifier can never produce `"healthcare"` — its keywords
are a subset of the earlier social-security rule's keywords, which always
fires first — while the hardcoded baseline does carry a healthcare entry,
so that type reaches a summary only through the baseline. -/
theorem classifier_never_healthcare :
    (∀ concept category : String, (mapConceptToType concept category == "healthcare") = false) ∧
    ∃ e : AggEntry, e ∈ (hardcodedBudgetData 2024).spending.items ∧ e.id = "healthcare" := by
  constructor
  · intro concept category
    simp only [mapConceptToType]
    split_ifs <;> try rfl
    rename_i h2 _ h4
    exfalso
    simp only [Bool.or_eq_true] at h2 h4
    tauto
  · exact ⟨{ id := "healthcare", total := 75000000000 }, by decide, rfl⟩

theorem updateFirst_map_id (l : List AggEntry) (t : String) (a : ℚ) :
    (updateFirst l t a).map (fun e => e.id) = l.map (fun e => e.id) := by
  induction l with
  | nil => rfl
  | cons e rest ih =>
    by_cases he : (e.id == t) = true
    · simp [updateFirst, he]
    · simp [updateFirst, he, ih]

theorem lookupTotal_updateFirst_self (l : List AggEntry) (t : String) (a : ℚ) :
    lookupTotal (updateFirst l t a) t = (lookupTotal l t).map (fun q => q + a) := by
  induction l with
  | nil => rfl
  | cons e rest ih =>
    by_cases he : (e.id == t) = true
    · simp [updateFirst, lookupTotal, List.find?_cons, he]
    · simpa [updateFirst, lookupTotal, List.find?_cons, he] using ih

theorem lookupTotal_updateFirst_ne (l : List AggEntry) (t : String) (a : ℚ) (t' : String)
    (h : t' ≠ t) :
    lookupTotal (updateFirst l t a) t' = lookupTotal l t' := by
  induction l with
  | nil => rfl
  | cons e rest ih =>
    by_cases he : (e.id == t) = true
    · have he1 : e.id = t := eq_of_beq he
      have he2 : (e.id == t') = false := beq_eq_false_iff_ne.mpr (he1 ▸ (Ne.symm h))
      simp [updateFirst, lookupTotal, List.find?_cons, he, he2]
    · by_cases he2 : (e.id == t') = true
      · simp [updateFirst, lookupTotal, List.find?_cons, he, he2]
      · simpa [updateFirst, lookupTotal, List.find?_cons, he, he2] using ih

theorem lookupTotal_upsert (acc : List AggEntry) (i : BudgetLineItem) (t : String) :
    lookupTotal (upsertEntry acc i) t =
      if t = i.type then some ((lookupTotal acc i.type).getD 0 + i.amount)
      else lookupTotal acc t := by
  unfold upsertEntry
  by_cases hf : (acc.find? (fun e => e.id == i.type)).isSome
  · rw [if_pos hf]
    by_cases ht : t = i.type
    · subst ht
      rw [if_pos rfl, lookupTotal_updateFirst_self]
      obtain ⟨e, he⟩ := Option.isSome_iff_exists.mp hf
      simp [lookupTotal, he]
    · rw [if_neg ht, lookupTotal_updateFirst_ne _ _ _ _ ht]
  · rw [if_neg hf]
    have hnone : acc.find? (fun e => e.id == i.type) = none := by
      cases hx : acc.find? (fun e => e.id == i.type) with
      | none => rfl
      | some e => exact absurd (by simp [hx]) hf
    by_cases ht : t = i.type
    · subst ht
      simp [lookupTotal, List.find?_append, hnone]
    · have hne : (i.type == t) = false := beq_eq_false_iff_ne.mpr (Ne.symm ht)
      rw [if_neg ht]
      simp [lookupTotal, List.find?_append, hne]

theorem lookupTotal_foldl (items : List BudgetLineItem) :
    ∀ (acc : List AggEntry) (t : String),
      lookupTotal (items.foldl upsertEntry acc) t =
        match lookupTotal acc t with
        | some q => some (q + typeSum items t)
        | none =>
          if (items.map (fun i => i.type)).contains t then some (typeSum items t) else none := by
  induction items with
  | nil =>
    intro acc t
    cases h : lookupTotal acc t <;> simp [h, typeSum]
  | cons i rest ih =>
    intro acc t
    rw [List.foldl_cons, ih, lookupTotal_upsert]
    by_cases ht : t = i.type
    · subst ht
      have htype : (i.type == i.type) = true := beq_self_eq_true i.type
      have hsum : typeSum (i :: rest) i.type = i.amount + typeSum rest i.type := by
        simp [typeSum, List.filter_cons, htype]
      cases hacc : lookupTotal acc i.type with
      | some q => simp [hacc, hsum, add_assoc]
      | none => simp [hacc, hsum, List.contains_cons, htype, zero_add]
    · have h1 : (i.type == t) = false := beq_eq_false_iff_ne.mpr (Ne.symm ht)
      have h2 : (t == i.type) = false := beq_eq_false_iff_ne.mpr ht
      have hsum : typeSum (i :: rest) t = typeSum rest t := by
        simp [typeSum, List.filter_cons, h1]
      rw [if_neg ht, hsum]
      cases hacc : lookupTotal acc t with
      | some q => simp [hacc]
      | none => simp [hacc, List.contains_cons, h2, ht]

theorem find?_isSome_iff_contains (acc : List AggEntry) (t : String) :
    (acc.find? (fun e => e.id == t)).isSome = (acc.map (fun e => e.id)).contains t := by
  induction acc with
  | nil => rfl
  | cons e rest ih =>
    by_cases he : (e.id == t) = true
    · have h1 : e.id = t := eq_of_beq he
      simp [List.find?_cons, he, List.contains_cons, h1]
    · have h1 : e.id ≠ t := fun hh => he (by simp [hh])
      have h2 : (t == e.id) = false := beq_eq_false_iff_ne.mpr (Ne.symm h1)
      simp [List.find?_cons, he, List.contains_cons, h2, ih, Ne.symm h1]

theorem upsert_map_id (acc : List AggEntry) (i : BudgetLineItem) :
    (upsertEntry acc i).map (fun e => e.id) =
      if (acc.map (fun e => e.id)).contains i.type then acc.map (fun e => e.id)
      else acc.map (fun e => e.id) ++ [i.type] := by
  unfold upsertEntry
  by_cases hf : (acc.find? (fun e => e.id == i.type)).isSome
  · rw [if_pos hf, updateFirst_map_id, if_pos]
    rw [← find?_isSome_iff_contains]
    exact hf
  · rw [if_neg hf, if_neg]
    · simp
    · rw [← find?_isSome_iff_contains]
      simpa using hf

theorem nodup_foldl_upsert (items : List BudgetLineItem) :
    ∀ acc : List AggEntry, ((acc.map (fun e => e.id)).Nodup) →
      ((items.foldl upsertEntry acc).map (fun e => e.id)).Nodup := by
  induction items with
  | nil => intro acc h; simpa using h
  | cons i rest ih =>
    intro acc h
    rw [List.foldl_cons]
    apply ih
    rw [upsert_map_id]
    by_cases hc : ((acc.map (fun e => e.id)).contains i.type) = true
    · rw [if_pos hc]; exact h
    · rw [if_neg hc]
      have hmem : i.type ∉ acc.map (fun e => e.id) := by
        intro hmem
        exact hc (by simpa using hmem)
      simp [List.nodup_append, h, hmem]

/-- C4: aggregation groups by type — the entry list has pairwise distinct
ids, the entry recorded for a type is exactly the sum of that type's
amounts (and absent when the type never occurs) — the summary's category
totals are the sums of their entries, the balance is income total minus
spending total, and the two vat items of the documented example collapse
to the single entry `{vat, 150}`. -/
theorem aggregation_groups_by_category_and_type :
    (∀ items : List BudgetLineItem,
        ((aggregateItems items).map (fun e => e.id)).Nodup ∧
        ∀ t : String,
          lookupTotal (aggregateItems items) t =
            if (items.map (fun i => i.type)).contains t then some (typeSum items t) else none) ∧
    (∀ (year : Int) (realData : List BudgetLineItem),
        (getSummary year realData).income.total = totalOf (getSummary year realData).income.items ∧
        (getSummary year realData).spending.total = totalOf (getSummary year realData).spending.items ∧
        (getSummary year realData).balance =
          (getSummary year realData).income.total - (getSummary year realData).spending.total) ∧
    (getSummary 2024
        [{ year := 2024, category := "income", type := "vat", amount := 100, description := "", conceptId := none },
         { year := 2024, category := "income", type := "vat", amount := 50, description := "", conceptId := none }]).income.items
      = [{ id := "vat", total := 150 }] := by
  refine ⟨?_, ?_, by decide⟩
  · intro items
    refine ⟨nodup_foldl_upsert items [] (by simp), ?_⟩
    intro t
    simpa [lookupTotal] using lookupTotal_foldl items [] t
  · intro year realData
    unfold getSummary
    split_ifs with h
    · exact ⟨rfl, rfl, rfl⟩
    · exact ⟨rfl, rfl, rfl⟩

theorem mem_processRow (conceptColumn : String) (yearColumns : List String)
    (category : String) (r : Row) (i : BudgetLineItem)
    (h : i ∈ processRow conceptColumn yearColumns category r) :
    ∃ col ∈ yearColumns, ∃ v : ℚ, cellValue r col = some v ∧ 0 < v ∧
      i.amount = v * 1000000 ∧ i.type = mapConceptToType i.description category ∧
      i.category = category := by
  unfold processRow at h
  split at h
  · simp at h
  · rcases List.mem_filterMap.mp h with ⟨col, hcol, hcell⟩
    refine ⟨col, hcol, ?_⟩
    unfold processCell at hcell
    split at hcell
    · simp at hcell
    · split at hcell
      · simp at hcell
      · rename_i a hcv
        split at hcell
        · simp at hcell
        · rename_i hpos
          split at hcell
          · simp at hcell
          · split at hcell
            · simp at hcell
            · rw [Option.some.injEq] at hcell
              subst hcell
              exact ⟨a, hcv, lt_of_not_le hpos, rfl, rfl, rfl⟩

theorem mem_processYearColumnsCSV (records : List Row) (category : String)
    (i : BudgetLineItem) (h : i ∈ processYearColumnsCSV records category) :
    ∃ r ∈ records,
      i ∈ processRow (conceptColumnOf (columnsOf records))
          (yearColumnsOf (columnsOf records)) category r := by
  cases records with
  | nil => simp [processYearColumnsCSV] at h
  | cons r0 rs =>
    simp only [processYearColumnsCSV] at h
    rcases List.mem_flatten.mp h with ⟨l, hl, hil⟩
    rcases List.mem_map.mp hl with ⟨r, hr, hleq⟩
    exact ⟨r, hr, hleq ▸ hil⟩

theorem mem_normalizeCSVData (records : List Row) (year : Int) (i : BudgetLineItem)
    (h : i ∈ normalizeCSVData records year) :
    0 < i.amount ∧ i.type = mapConceptToType i.description i.category := by
  cases records with
  | nil => simp [normalizeCSVData] at h
  | cons r0 rs =>
    simp only [normalizeCSVData] at h
    rcases List.mem_filterMap.mp h with ⟨r, hr, hrec⟩
    unfold normalizeRecord at hrec
    split at hrec
    · simp at hrec
    · rename_i hamt
      rw [Option.some.injEq] at hrec
      subst hrec
      exact ⟨lt_of_not_le hamt, rfl⟩

/-- C5: no emitted item has a non-positive amount — on the year-columns
path every cell parses to a strictly positive value before scaling, and on
the traditional path every record whose parsed amount is not positive is
discarded before an item is built. -/
theorem emitted_amounts_strictly_positive :
    (∀ (records : List Row) (category : String) (i : BudgetLineItem),
        i ∈ processYearColumnsCSV records category → 0 < i.amount) ∧
    (∀ (records : List Row) (year : Int) (i : BudgetLineItem),
        i ∈ normalizeCSVData records year → 0 < i.amount) := by
  constructor
  · intro records category i h
    rcases mem_processYearColumnsCSV records category i h with ⟨r, _, hrow⟩
    rcases mem_processRow _ _ _ _ _ hrow with ⟨_, _, v, _, hv, hamt, _, _⟩
    rw [hamt]
    exact mul_pos hv (by norm_num)
  · intro records year i h
    exact (mem_normalizeCSVData records year i h).1

/-- C5 witness: the example item carries a strictly positive amount, via
the theorem applied to the example table. -/
theorem emitted_amounts_strictly_positive_witness : 0 < exampleItem.amount :=
  emitted_amounts_strictly_positive.1 exampleTable "income" exampleItem (by decide)

/-- C6: on the year-columns path every emitted amount is a strictly
positive parsed cell value multiplied by 1,000,000, and the documented
example row yields exactly one income item for 2024 with amount
50,000,000,000. -/
theorem year_columns_millions_scaling :
    (∀ (records : List Row) (category : String) (i : BudgetLineItem),
        i ∈ processYearColumnsCSV records category →
          ∃ r ∈ records, ∃ col ∈ yearColumnsOf (columnsOf records), ∃ v : ℚ,
            cellValue r col = some v ∧ 0 < v ∧ i.amount = v * 1000000) ∧
    processYearColumnsCSV exampleTable "income" = [exampleItem] := by
  constructor
  · intro records category i h
    rcases mem_processYearColumnsCSV records category i h with ⟨r, hr, hrow⟩
    rcases mem_processRow _ _ _ _ _ hrow with ⟨col, hcol, v, hcv, hv, hamt, _, _⟩
    exact ⟨r, hr, col, hcol, v, hcv, hv, hamt⟩
  · decide

/-- C6 witness: the theorem applied to the example table's single item
recovers the 50000.00-million cell behind the 50,000,000,000 amount. -/
theorem year_columns_millions_scaling_witness :
    ∃ r ∈ exampleTable, ∃ col ∈ yearColumnsOf (columnsOf exampleTable), ∃ v : ℚ,
      cellValue r col = some v ∧ 0 < v ∧ exampleItem.amount = v * 1000000 :=
  year_columns_millions_scaling.1 exampleTable "income" exampleItem (by decide)

/-- C7: a year-columns row whose trimmed concept cell is empty, equals the
concept column's name, contains "total" case-insensitively, or is purely
numeric emits no item, whatever the year columns are. -/
theorem total_rows_emit_nothing :
    ∀ (records : List Row) (category : String) (r : Row) (yearColumns : List String),
      r ∈ records →
      (rowConcept r (conceptColumnOf (columnsOf records)) = "" ∨
       rowConcept r (conceptColumnOf (columnsOf records)) = conceptColumnOf (columnsOf records) ∨
       includesStr (toLowerString (rowConcept r (conceptColumnOf (columnsOf records)))) "total" = true ∨
       isNumericStr (rowConcept r (conceptColumnOf (columnsOf records))) = true) →
      processRow (conceptColumnOf (columnsOf records)) yearColumns category r = [] := by
  intro records category r yearColumns _ hskip
  unfold processRow
  rw [if_pos]
  rcases hskip with h | h | h | h
  · simp [h]
  · simp [h]
  · simp [h]
  · simp [h]

/-- C7 witness: the "Total" subtotal row emits nothing. -/
theorem total_rows_emit_nothing_witness :
    processRow (conceptColumnOf (columnsOf [exampleTotalRow])) ["2024"] "income"
      exampleTotalRow = [] :=
  total_rows_emit_nothing [exampleTotalRow] "income" exampleTotalRow ["2024"]
    (by decide) (Or.inr (Or.inr (Or.inl (by decide))))

/-- C8: on the year-columns local path, when filtering the processed
multi-year items by the requested year yields nothing, `fetchHaciendaCSV`
returns the entire unfiltered multi-year dataset rather than falling back
to the baseline. -/
theorem fetch_returns_unfiltered_on_empty_year :
    ∀ (year : Int) (f : LocalFiles) (network : List Row),
      yearColumnData f ≠ [] →
      (yearColumnData f).filter (fun i => i.year == year) = [] →
      fetchHaciendaCSV year f network = Sum.inl (yearColumnData f) := by
  intro year f network hne hfil
  unfold fetchHaciendaCSV readLocalCSV
  rw [if_pos (by simpa [List.length_pos] using hne)]
  simp [filterProcessed, hfil]

/-- C8 witness: requesting 2020 against a local directory holding only
2024 year-columns data returns the full 2024 dataset. -/
theorem fetch_returns_unfiltered_on_empty_year_witness :
    fetchHaciendaCSV 2020 exampleLocalFiles [] = Sum.inl (yearColumnData exampleLocalFiles) :=
  fetch_returns_unfiltered_on_empty_year 2020 exampleLocalFiles [] (by decide) (by decide)

/-- C9: for processed year-columns data `fetchBudgetData` re-filters by
the requested year, so every returned item carries that year; and when the
source holds no rows for the year, `fetchBudgetData` returns the empty
list — so the summary route serves the hardcoded baseline — even though
the inner `fetchHaciendaCSV` returned the full multi-year dataset. -/
theorem fetchBudgetData_refilters_by_year :
    ∀ (year : Int) (f : LocalFiles) (network : List Row),
      yearColumnData f ≠ [] →
      (∀ i ∈ fetchBudgetData year f network, i.year = year) ∧
      ((yearColumnData f).filter (fun i => i.year == year) = [] →
        fetchBudgetData year f network = [] ∧
        getSummary year (fetchBudgetData year f network) = hardcodedBudgetData year ∧
        fetchHaciendaCSV year f network = Sum.inl (yearColumnData f)) := by
  intro year f network hne
  constructor
  · intro i hi
    unfold fetchBudgetData at hi
    cases hfetch : fetchHaciendaCSV year f network with
    | inl items =>
      rw [hfetch] at hi
      simp only [dataFromFetch] at hi
      split at hi
      · exact eq_of_beq (List.mem_filter.mp hi).2
      · simp at hi
    | inr raw =>
      exfalso
      unfold fetchHaciendaCSV readLocalCSV at hfetch
      rw [if_pos (by simpa [List.length_pos] using hne)] at hfetch
      simp only [filterProcessed] at hfetch
      split at hfetch <;> exact absurd hfetch (by simp)
  · intro hfil
    have hfetch := fetch_returns_unfiltered_on_empty_year year f network hne hfil
    have hdata : fetchBudgetData year f network = [] := by
      unfold fetchBudgetData
      rw [hfetch]
      simp only [dataFromFetch]
      split
      · exact hfil
      · rfl
    exact ⟨hdata, by rw [hdata]; rfl, hfetch⟩

/-- C9 witness: requesting 2020 against the 2024-only local directory
yields no items and the hardcoded baseline summary. -/
theorem fetchBudgetData_refilters_by_year_witness :
    fetchBudgetData 2020 exampleLocalFiles [] = [] ∧
    getSummary 2020 (fetchBudgetData 2020 exampleLocalFiles []) = hardcodedBudgetData 2020 :=
  ⟨((fetchBudgetData_refilters_by_year 2020 exampleLocalFiles [] (by decide)).2 (by decide)).1,
   ((fetchBudgetData_refilters_by_year 2020 exampleLocalFiles [] (by decide)).2 (by decide)).2.1⟩

end BudgetPipeline
